import Mathlib

/-!
# Granite: importer data model, frame timer and the ASTC texture-quad test

A shallow embedding of three source files of the repository:

* `util/timer.cpp`          (namespace `Granite`, class `FrameTimer`);
* `importers/importers.hpp` (namespace `Granite::Importer`);
* `tests/texture-quad.cpp`  (the ASTC header helpers and `QuadApplication`).

Conventions.

* `int64_t` nanosecond time stamps are integers (`Int`). Readings of
  `std::chrono::steady_clock` are far from the 64-bit range, and signed overflow
  is undefined in C++, so no wrap-around is modelled for them.
* `uint32_t` values are natural numbers, and every `uint32_t` operation is
  reduced modulo `2 ^ 32` explicitly.
* `uint8_t` is `Fin 256`.
* `float` values are modelled by the rational numbers they denote (`ℚ`); NaN and
  the infinities are outside the model.
* Every call of `FrameTimer::get_time()` is replaced by an explicit argument
  `now`, the reading of the steady clock at that call.
-/

namespace Granite

/-! ## `util/timer.cpp` -/

/-- The data members of `FrameTimer` used by `timer.cpp`, all `int64_t`. -/
structure FrameTimer where
  start : Int
  last : Int
  last_period : Int
  idle_start : Int
  idle_time : Int
  deriving DecidableEq, Repr

namespace FrameTimer

/-- `FrameTimer::reset()`: `start = get_time(); last = start; last_period = 0;`. -/
def reset (s : FrameTimer) (now : Int) : FrameTimer :=
  let start := now
  { s with start := start, last := start, last_period := 0 }

/-- `FrameTimer::FrameTimer()`: the body is the single call `reset()`. The
member initialisers live in `timer.hpp`, which is not part of the sources, so
the initial `idle_start` and `idle_time` are parameters. -/
def init (idle_start0 idle_time0 : Int) (now : Int) : FrameTimer :=
  reset { start := 0, last := 0, last_period := 0,
          idle_start := idle_start0, idle_time := idle_time0 } now

/-- `FrameTimer::enter_idle()`: `idle_start = get_time();`. -/
def enter_idle (s : FrameTimer) (now : Int) : FrameTimer :=
  { s with idle_start := now }

/-- `FrameTimer::leave_idle()`:
`auto idle_end = get_time(); idle_time += idle_end - idle_start;`. -/
def leave_idle (s : FrameTimer) (now : Int) : FrameTimer :=
  let idle_end := now
  { s with idle_time := s.idle_time + (idle_end - s.idle_start) }

/-- `FrameTimer::frame()`, the state update:
`auto new_time = get_time() - idle_time; last_period = new_time - last;
last = new_time;`. -/
def frame (s : FrameTimer) (now : Int) : FrameTimer :=
  let new_time := now - s.idle_time
  let last_period := new_time - s.last
  { s with last_period := last_period, last := new_time }

/-- The period in nanoseconds behind the value returned by `frame()`: the call
returns `double(last_period) * 1e-9` of the updated state, which has the sign
of `last_period`. -/
def frame_ns (s : FrameTimer) (now : Int) : Int :=
  (frame s now).last_period

/-- The nanosecond count behind `get_frame_time()`, which returns
`double(last_period) * 1e-9`. -/
def get_frame_time_ns (s : FrameTimer) : Int :=
  s.last_period

/-- The nanosecond count behind `get_elapsed()`, which returns
`double(last - start) * 1e-9`. -/
def get_elapsed_ns (s : FrameTimer) : Int :=
  s.last - s.start

end FrameTimer

/-- The state-changing public operations of `FrameTimer`. -/
inductive TimerOp where
  | reset
  | enter_idle
  | leave_idle
  | frame
  deriving DecidableEq, Repr

/-- One call: the operation together with the clock reading `get_time()`
returns inside it. -/
abbrev TimerCall := TimerOp × Int

/-- The effect of one call on the timer. -/
def FrameTimer.step (s : FrameTimer) (c : TimerCall) : FrameTimer :=
  match c.1 with
  | TimerOp.reset => s.reset c.2
  | TimerOp.enter_idle => s.enter_idle c.2
  | TimerOp.leave_idle => s.leave_idle c.2
  | TimerOp.frame => s.frame c.2

/-- The timer after a sequence of calls, oldest first. -/
def FrameTimer.run (s : FrameTimer) (calls : List TimerCall) : FrameTimer :=
  calls.foldl FrameTimer.step s

/-- The nanosecond periods computed by the `frame()` calls of a sequence, in
call order. -/
def FrameTimer.deltas (s : FrameTimer) : List TimerCall → List Int
  | [] => []
  | c :: rest =>
    match c.1 with
    | TimerOp.frame => s.frame_ns c.2 :: FrameTimer.deltas (s.step c) rest
    | _ => FrameTimer.deltas (s.step c) rest

/-- The sum of the periods computed by the `frame()` calls made since the most
recent `reset()` of a sequence; `acc` is the sum already collected since the
most recent `reset()` before the sequence. -/
def FrameTimer.periods_since_reset (s : FrameTimer) (acc : Int) : List TimerCall → Int
  | [] => acc
  | c :: rest =>
    match c.1 with
    | TimerOp.reset => FrameTimer.periods_since_reset (s.step c) 0 rest
    | TimerOp.frame =>
      FrameTimer.periods_since_reset (s.step c) (acc + s.frame_ns c.2) rest
    | _ => FrameTimer.periods_since_reset (s.step c) acc rest

/-- A sequence of calls under a non-decreasing clock, in which idle intervals
are matched `enter_idle()`/`leave_idle()` pairs and no `frame()` or `reset()`
falls inside one. `idle` tells whether an idle interval is open before the
sequence, `prev` is the clock reading of the previous call. -/
def well_timed (idle : Bool) (prev : Int) : List TimerCall → Bool
  | [] => true
  | c :: rest =>
    decide (prev ≤ c.2) &&
    match c.1 with
    | TimerOp.reset => !idle && well_timed false c.2 rest
    | TimerOp.frame => !idle && well_timed false c.2 rest
    | TimerOp.enter_idle => !idle && well_timed true c.2 rest
    | TimerOp.leave_idle => idle && well_timed false c.2 rest

/-! ## `importers/importers.hpp` -/

namespace Importer

/-- The `vec3` of the math library (three `float` components). -/
structure vec3 where
  x : ℚ
  y : ℚ
  z : ℚ
  deriving DecidableEq

/-- The three-argument constructor `vec3(x, y, z)`. -/
def vec3.ctor (x y z : ℚ) : vec3 := { x := x, y := y, z := z }

/-- The one-argument constructor `vec3(s)`, which fills every component. -/
def vec3.splat (s : ℚ) : vec3 := { x := s, y := s, z := s }

/-- The `quat` of the math library (four `float` components). -/
structure quat where
  w : ℚ
  x : ℚ
  y : ℚ
  z : ℚ
  deriving DecidableEq

/-- Modelled from the spec: the declaration of `quat` (math library, reached
through `transforms.hpp`) is not part of the sources. Its four-argument
constructor takes the scalar part first, `quat(w, x, y, z)`, so that
`quat(1.0f, 0.0f, 0.0f, 0.0f)` is the identity rotation the spec names as the
default. -/
def quat.ctor (w x y z : ℚ) : quat := { w := w, x := x, y := y, z := z }

/-- The squared norm of a quaternion, `w*w + x*x + y*y + z*z`. -/
def quat.norm_sq (q : quat) : ℚ := q.w * q.w + q.x * q.x + q.y * q.y + q.z * q.z

/-- `struct NodeTransform`. -/
structure NodeTransform where
  scale : vec3
  rotation : quat
  translation : vec3
  deriving DecidableEq

/-- A default-constructed `NodeTransform`, from the default member initialisers
`scale = vec3(1.0f, 1.0f, 1.0f)`, `rotation = quat(1.0f, 0.0f, 0.0f, 0.0f)`,
`translation = vec3(0.0f)`. -/
def NodeTransform.default : NodeTransform :=
  { scale := vec3.ctor 1 1 1
    rotation := quat.ctor 1 0 0 0
    translation := vec3.splat 0 }

/-- One entry of a keyframe track: a time in seconds and the value there. -/
structure Keyframe (V : Type) where
  time : ℚ
  value : V

/-- The keyframe track behind `LinearSampler` (translation and scale
channels); the class itself is declared in `transforms.hpp`, which is not part
of the sources. -/
structure LinearSampler where
  keyframes : List (Keyframe vec3)

/-- The keyframe track behind `SlerpSampler` (the rotation channel). -/
structure SlerpSampler where
  keyframes : List (Keyframe quat)

/-- Modelled from the spec: `LinearSampler::get_length()` is not part of the
sources; it "returns the time of the last keyframe, or 0 for an empty
track". -/
def LinearSampler.get_length (s : LinearSampler) : ℚ :=
  match s.keyframes.getLast? with
  | some k => k.time
  | none => 0

/-- Modelled from the spec: `SlerpSampler::get_length()` is not part of the
sources; it "returns the time of the last keyframe, or 0 for an empty
track". -/
def SlerpSampler.get_length (s : SlerpSampler) : ℚ :=
  match s.keyframes.getLast? with
  | some k => k.time
  | none => 0

/-- The function `std::max(a, b)` of the C++ standard library:
`(a < b) ? b : a`. -/
def std_max (a b : ℚ) : ℚ := if a < b then b else a

/-- `struct AnimationSampler`. -/
structure AnimationSampler where
  translation : LinearSampler
  scale : LinearSampler
  rotation : SlerpSampler

/-- `AnimationSampler::get_length()`:
`float length = translation.get_length();
length = std::max(length, rotation.get_length());
length = std::max(length, scale.get_length()); return length;`. -/
def AnimationSampler.get_length (s : AnimationSampler) : ℚ :=
  let length := s.translation.get_length
  let length := std_max length s.rotation.get_length
  let length := std_max length s.scale.get_length
  length

/-- Component-wise linear blend of two vectors, `a * (1 - u) + b * u`. -/
def vec3.mix (a b : vec3) (u : ℚ) : vec3 :=
  { x := a.x * (1 - u) + b.x * u
    y := a.y * (1 - u) + b.y * u
    z := a.z * (1 - u) + b.z * u }

/-- Modelled from the spec: the blend factor of the keyframe track sampler,
`u = (t - k_i.time) / (k_{i+1}.time - k_i.time)`, "guarding against a
zero-length interval (duplicate times) by treating `u` as 0". -/
def LinearSampler.blend_factor (k0 k1 : Keyframe vec3) (t : ℚ) : ℚ :=
  if k1.time - k0.time = 0 then 0 else (t - k0.time) / (k1.time - k0.time)

/-- Modelled from the spec: the search for the bracketing pair of the keyframe
track sampler, a linear scan. `k` is the keyframe the scan stands on and the
list holds the keyframes after it; the first keyframe `k1` with
`t <= k1.time` closes the pair, and the value is the component-wise linear
blend of the pair. -/
def LinearSampler.sample_bracket (k : Keyframe vec3) : List (Keyframe vec3) → ℚ → vec3
  | [], _ => k.value
  | k1 :: rest, t =>
    if t ≤ k1.time then vec3.mix k.value k1.value (LinearSampler.blend_factor k k1 t)
    else LinearSampler.sample_bracket k1 rest t

/-- Modelled from the spec: `LinearSampler::sample` is not part of the sources.
Zero keyframes give the caller-supplied default, one keyframe gives its value
for all `t`; otherwise `t` before the first keyframe clamps to the first value,
`t` after the last keyframe clamps to the last value, and any other `t` is
blended inside its bracketing pair. -/
def LinearSampler.sample (s : LinearSampler) (dflt : vec3) (t : ℚ) : vec3 :=
  match s.keyframes with
  | [] => dflt
  | [k] => k.value
  | k0 :: k1 :: rest =>
    let last := (k1 :: rest).getLast (List.cons_ne_nil k1 rest)
    if t < k0.time then k0.value
    else if last.time < t then last.value
    else LinearSampler.sample_bracket k0 (k1 :: rest) t

/-- Modelled from the spec: `AnimationSampler::sample_transform(vec3 &transform,
float t)` is declared in `importers.hpp` and defined outside the sources; it
delegates to the translation track and writes the caller-provided output, whose
old content is the default of an empty track. -/
def AnimationSampler.sample_transform (s : AnimationSampler) (transform : vec3) (t : ℚ) : vec3 :=
  s.translation.sample transform t

/-- Modelled from the spec: `AnimationSampler::sample_scale(vec3 &scale, float t)`
is declared in `importers.hpp` and defined outside the sources; it delegates to
the scale track. -/
def AnimationSampler.sample_scale (s : AnimationSampler) (scale : vec3) (t : ℚ) : vec3 :=
  s.scale.sample scale t

/-- `struct Mesh`. The buffers are byte lists, the `uint32_t` members natural
numbers, and the two Vulkan enumerations their integer values. The members
`attribute_layout` and `static_aabb` have types declared outside the sources
(`mesh.hpp`, `aabb.hpp`) and take no part in any size relation; they are left
out. -/
structure Mesh where
  positions : List (Fin 256)
  attributes : List (Fin 256)
  position_stride : Nat
  attribute_stride : Nat
  indices : List (Fin 256)
  index_type : Nat
  topology : Nat
  material_index : Nat
  has_material : Bool
  count : Nat
  deriving DecidableEq

/-- A default-constructed `Mesh`: empty buffers and the default member
initialisers `position_stride = 0`, `attribute_stride = 0`,
`material_index = 0`, `has_material = false`, `count = 0`. The two enumeration
members have no initialiser and are parameters. -/
def Mesh.default (index_type topology : Nat) : Mesh :=
  { positions := [], attributes := [], position_stride := 0, attribute_stride := 0,
    indices := [], index_type := index_type, topology := topology,
    material_index := 0, has_material := false, count := 0 }

/-- The errors of an import, as far as meshes are concerned. -/
inductive ImportError where
  | stride_size_mismatch
  deriving DecidableEq

/-- Modelled from the spec: the stride/size invariant of a mesh,
`positions.size() == count * position_stride` "and similarly for attributes";
the products are those of the mathematical integers. (For the index buffer the
spec gives no formula, and `Mesh` stores no index count.) -/
def Mesh.sizes_match (m : Mesh) : Bool :=
  m.positions.length == m.count * m.position_stride &&
  m.attributes.length == m.count * m.attribute_stride

/-- Modelled from the spec: the import-time check of the format reader, which
is not part of the sources. A stride/size mismatch is malformed import data,
"detected at import time, fatal to that asset's load"; a consistent mesh is
handed on unchanged. -/
def import_mesh (m : Mesh) : Except ImportError Mesh :=
  if m.sizes_match then Except.ok m else Except.error ImportError.stride_size_mismatch

end Importer

/-! ## `tests/texture-quad.cpp` -/

namespace TextureQuad

/-- The type `uint8_t`. -/
abbrev uint8_t := Fin 256

/-- The memory a `const void *` points to: the byte at each offset. -/
abbrev Bytes := Nat → uint8_t

/-- `struct astc_header`; all members are `uint8_t`, so the struct is 16 bytes
without padding. -/
structure astc_header where
  magic : Fin 4 → uint8_t
  block_x : uint8_t
  block_y : uint8_t
  block_z : uint8_t
  dim_x : Fin 3 → uint8_t
  dim_y : Fin 3 → uint8_t
  dim_z : Fin 3 → uint8_t

/-- `sizeof(astc_header)`. -/
def sizeof_astc_header : Nat := 16

/-- The cast `(struct astc_header *) data`: the header seen through the first
16 bytes at `data`. -/
def astc_header.cast (data : Bytes) : astc_header :=
  { magic := fun i => data i.val
    block_x := data 4
    block_y := data 5
    block_z := data 6
    dim_x := fun i => data (7 + i.val)
    dim_y := fun i => data (10 + i.val)
    dim_z := fun i => data (13 + i.val) }

/-- `is_arm_encoder_astc(const void *data)`. -/
def is_arm_encoder_astc (data : Bytes) : Bool :=
  let h := astc_header.cast data
  if h.magic 0 = 0x13 && h.magic 1 = 0xAB && h.magic 2 = 0xA1 && h.magic 3 = 0x5C then
    true
  else
    false

/-- The macro `DIM(dim)`: `dim[0] + (dim[1] << 8) + (dim[2] << 16)`, evaluated
in `int` after integer promotion of the bytes. -/
def DIM (dim : Fin 3 → uint8_t) : Nat :=
  (dim 0).val + ((dim 1).val <<< 8) + ((dim 2).val <<< 16)

/-- Conversion of a non-negative `int` to `uint32_t`. -/
def to_uint32 (n : Nat) : Nat := n % 2 ^ 32

/-- Addition of `uint32_t`. -/
def u32_add (a b : Nat) : Nat := (a + b) % 2 ^ 32

/-- Subtraction of `uint32_t`, for operands below `2 ^ 32`. -/
def u32_sub (a b : Nat) : Nat := (a + 2 ^ 32 - b) % 2 ^ 32

/-- Multiplication of `uint32_t`. -/
def u32_mul (a b : Nat) : Nat := (a * b) % 2 ^ 32

/-- `VkExtent2D`: two `uint32_t` members. -/
structure VkExtent2D where
  width : Nat
  height : Nat
  deriving DecidableEq, Repr

/-- What `QuadApplication::on_device_created` has computed when it reaches
`astc_layout.set_buffer(astc_data, astc_size)`: the member `astc_dim`, the
locals `block_w`, `block_h`, `w_blocks`, `h_blocks`, `astc_size`, and how far
`astc_data` was advanced. -/
structure AstcSetup where
  astc_dim : VkExtent2D
  block_w : Nat
  block_h : Nat
  w_blocks : Nat
  h_blocks : Nat
  astc_size : Nat
  astc_data_offset : Nat
  deriving DecidableEq, Repr

/-- `QuadApplication::on_device_created`, up to the computation of `astc_size`.
The built-in image `tux_astc8x8_256x256` comes from a header that is not part
of the sources, so the bytes `astc_data` points to are a parameter. The result
is `none` where the program does not get that far: `std::terminate()` for data
without the magic, and a division by zero for a zero block size. -/
def QuadApplication.on_device_created (astc_data : Bytes) : Option AstcSetup :=
  let astc_size : Nat := 0
  if is_arm_encoder_astc astc_data then
    let he := astc_header.cast astc_data
    let astc_dim : VkExtent2D :=
      { width := to_uint32 (DIM he.dim_x), height := to_uint32 (DIM he.dim_y) }
    let block_w : Nat := he.block_x.val
    let block_h : Nat := he.block_y.val
    let astc_data_offset := sizeof_astc_header
    if block_w = 0 ∨ block_h = 0 then none
    else
      let w_blocks := u32_sub (u32_add astc_dim.width block_w) 1 / block_w
      let h_blocks := u32_sub (u32_add astc_dim.height block_h) 1 / block_h
      let astc_size :=
        if astc_size = 0 then u32_mul (u32_mul w_blocks h_blocks) 16 else astc_size
      some { astc_dim := astc_dim, block_w := block_w, block_h := block_h,
             w_blocks := w_blocks, h_blocks := h_blocks, astc_size := astc_size,
             astc_data_offset := astc_data_offset }
  else
    none

/-- A byte buffer given by its leading bytes, zero afterwards. -/
def bytes_of (l : List uint8_t) : Bytes := fun i => l.getD i 0

end TextureQuad

/-! ## Theorems: `util/timer.cpp` -/

/-- Running a call sequence keeps `last - start` equal to the running sum of
the periods since the most recent `reset()`. -/
theorem FrameTimer.run_elapsed (calls : List TimerCall) :
    ∀ (s : FrameTimer) (acc : Int), s.get_elapsed_ns = acc →
      (s.run calls).get_elapsed_ns = s.periods_since_reset acc calls := by
  induction calls with
  | nil => intro s acc h; simpa [FrameTimer.run, FrameTimer.periods_since_reset] using h
  | cons c rest ih =>
    intro s acc h
    obtain ⟨op, now⟩ := c
    have hrun : s.run ((op, now) :: rest) = (s.step (op, now)).run rest := rfl
    rw [hrun]
    cases op
    · simp only [FrameTimer.periods_since_reset]
      apply ih
      simp [FrameTimer.step, FrameTimer.reset, FrameTimer.get_elapsed_ns]
    · simp only [FrameTimer.periods_since_reset]
      apply ih
      simpa [FrameTimer.step, FrameTimer.enter_idle, FrameTimer.get_elapsed_ns] using h
    · simp only [FrameTimer.periods_since_reset]
      apply ih
      simpa [FrameTimer.step, FrameTimer.leave_idle, FrameTimer.get_elapsed_ns] using h
    · simp only [FrameTimer.periods_since_reset]
      apply ih
      simp only [FrameTimer.step, FrameTimer.frame, FrameTimer.frame_ns,
        FrameTimer.get_elapsed_ns] at h ⊢
      omega

/-- Without `reset()`, a well-timed sequence keeps the idle-adjusted time
stamp `last` at or below the idle-adjusted clock, so every delta is
non-negative. -/
theorem FrameTimer.deltas_nonneg_of_inv (calls : List TimerCall) :
    ∀ (s : FrameTimer) (idle : Bool) (prev : Int),
      well_timed idle prev calls = true →
      (∀ c ∈ calls, c.1 ≠ TimerOp.reset) →
      (if idle then s.last + s.idle_time ≤ s.idle_start ∧ s.idle_start ≤ prev
        else s.last + s.idle_time ≤ prev) →
      ∀ d ∈ s.deltas calls, 0 ≤ d := by
  induction calls with
  | nil => intro s idle prev _ _ _ d hd; simp [FrameTimer.deltas] at hd
  | cons c rest ih =>
    intro s idle prev hw hnr hinv d hd
    obtain ⟨op, now⟩ := c
    have hrest : ∀ c ∈ rest, c.1 ≠ TimerOp.reset :=
      fun c hc => hnr c (List.mem_cons_of_mem _ hc)
    cases op
    · exact absurd rfl (hnr (TimerOp.reset, now) (List.mem_cons_self _ _))
    · simp only [well_timed, Bool.and_eq_true, decide_eq_true_eq, Bool.not_eq_true'] at hw
      obtain ⟨hle, hidle, hw2⟩ := hw
      subst hidle
      simp only [FrameTimer.deltas] at hd
      refine ih (s.step (TimerOp.enter_idle, now)) true now hw2 hrest ?_ d hd
      simp only [FrameTimer.step, FrameTimer.enter_idle, if_true] at hinv ⊢
      simp only [Bool.false_eq_true, if_false] at hinv
      omega
    · simp only [well_timed, Bool.and_eq_true, decide_eq_true_eq] at hw
      obtain ⟨hle, hidle, hw2⟩ := hw
      subst hidle
      simp only [FrameTimer.deltas] at hd
      refine ih (s.step (TimerOp.leave_idle, now)) false now hw2 hrest ?_ d hd
      simp only [FrameTimer.step, FrameTimer.leave_idle, if_true, Bool.false_eq_true,
        if_false] at hinv ⊢
      omega
    · simp only [well_timed, Bool.and_eq_true, decide_eq_true_eq, Bool.not_eq_true'] at hw
      obtain ⟨hle, hidle, hw2⟩ := hw
      subst hidle
      simp only [Bool.false_eq_true, if_false] at hinv
      simp only [FrameTimer.deltas, List.mem_cons] at hd
      rcases hd with hd | hd
      · subst hd
        simp only [FrameTimer.frame_ns, FrameTimer.frame]
        omega
      · refine ih (s.step (TimerOp.frame, now)) false now hw2 hrest ?_ d hd
        simp only [FrameTimer.step, FrameTimer.frame, Bool.false_eq_true, if_false]
        omega

/-- The deltas of a freshly constructed timer (initial `idle_time` 0) are
non-negative along every well-timed call sequence that contains no further
`reset()`: a negative delta needs a `reset()` after idle time was
accumulated. -/
theorem FrameTimer.deltas_nonneg_without_reset (idle_start0 t0 : Int)
    (calls : List TimerCall)
    (hw : well_timed false t0 calls = true)
    (hnr : ∀ c ∈ calls, c.1 ≠ TimerOp.reset) :
    ∀ d ∈ (FrameTimer.init idle_start0 0 t0).deltas calls, 0 ≤ d := by
  refine FrameTimer.deltas_nonneg_of_inv calls _ false t0 hw hnr ?_
  simp [FrameTimer.init, FrameTimer.reset]

/-- An instance of `deltas_nonneg_without_reset`: a frame, an idle interval of
100 ns and a second frame; the second delta, 25 ns, is non-negative. -/
theorem FrameTimer.deltas_nonneg_without_reset_witness :
    (25 : Int) ∈ (FrameTimer.init 0 0 0).deltas
        [(TimerOp.frame, 5), (TimerOp.enter_idle, 10), (TimerOp.leave_idle, 110),
          (TimerOp.frame, 130)]
      ∧ (0 : Int) ≤ 25 :=
  have hmem : (25 : Int) ∈ (FrameTimer.init 0 0 0).deltas
      [(TimerOp.frame, 5), (TimerOp.enter_idle, 10), (TimerOp.leave_idle, 110),
        (TimerOp.frame, 130)] := by decide
  ⟨hmem, FrameTimer.deltas_nonneg_without_reset 0 0 _ (by decide) (by decide) 25 hmem⟩

/-- C5, evaluated at the failing input. The claim: under a non-decreasing
clock, for every sequence of `reset()`, `frame()` and matched
`enter_idle()`/`leave_idle()` pairs with no `frame()` or `reset()` inside an
idle interval, every delta returned by `frame()` is non-negative. The code: a
timer constructed at reading 0 that idles from 10 to 110, is reset at 120 and
takes a frame at 130 is driven by a well-timed sequence, and its `frame()`
computes the period `-90 - idle_time0` ns, where `idle_time0` is the initial
`idle_time`: -90 ns for the initial value 0. `reset()` stores the raw clock in
`last`, while `frame()` works with the clock minus `idle_time`. -/
theorem FrameTimer.negative_delta_after_reset (idle_start0 idle_time0 : Int) :
    well_timed false 0
        [(TimerOp.enter_idle, 10), (TimerOp.leave_idle, 110), (TimerOp.reset, 120),
          (TimerOp.frame, 130)] = true
      ∧ (FrameTimer.init idle_start0 idle_time0 0).deltas
          [(TimerOp.enter_idle, 10), (TimerOp.leave_idle, 110), (TimerOp.reset, 120),
            (TimerOp.frame, 130)] = [-90 - idle_time0]
      ∧ (FrameTimer.init 0 0 0).deltas
          [(TimerOp.enter_idle, 10), (TimerOp.leave_idle, 110), (TimerOp.reset, 120),
            (TimerOp.frame, 130)] = [-90] := by
  refine ⟨by decide, ?_, by decide⟩
  simp only [FrameTimer.deltas, FrameTimer.step, FrameTimer.frame_ns, FrameTimer.frame,
    FrameTimer.enter_idle, FrameTimer.leave_idle, FrameTimer.reset, FrameTimer.init]
  congr 1
  omega

/-- C9: for every sequence of `FrameTimer` operations applied to a constructed
timer, the elapsed time in nanoseconds behind `get_elapsed()`, `last - start`,
equals the sum of the nanosecond periods computed by all `frame()` calls made
since the most recent `reset()` (0 if there were none); `enter_idle()` and
`leave_idle()` never change it. -/
theorem FrameTimer.elapsed_eq_periods_since_reset
    (idle_start0 idle_time0 t0 : Int) (calls : List TimerCall) :
    ((FrameTimer.init idle_start0 idle_time0 t0).run calls).get_elapsed_ns
        = (FrameTimer.init idle_start0 idle_time0 t0).periods_since_reset 0 calls
      ∧ ∀ (s : FrameTimer) (now : Int),
          (s.enter_idle now).get_elapsed_ns = s.get_elapsed_ns
            ∧ (s.leave_idle now).get_elapsed_ns = s.get_elapsed_ns := by
  refine ⟨FrameTimer.run_elapsed calls _ 0 ?_, fun s now => ⟨rfl, rfl⟩⟩
  simp [FrameTimer.init, FrameTimer.reset, FrameTimer.get_elapsed_ns]

/-- C10: idle time is excluded from frame deltas. From any timer state
(whatever idle time was accumulated before), if a `frame()` at clock reading
`a` is followed by one `enter_idle()` at `t1`, the matching `leave_idle()` at
`t2` and the next `frame()` at `b`, with no `reset()` between, then the second
`frame()` reports a period of exactly `(b - a) - (t2 - t1)` nanoseconds. -/
theorem FrameTimer.idle_excluded_from_delta (s : FrameTimer) (a t1 t2 b : Int) :
    s.deltas [(TimerOp.frame, a), (TimerOp.enter_idle, t1), (TimerOp.leave_idle, t2),
        (TimerOp.frame, b)]
      = [s.frame_ns a, (b - a) - (t2 - t1)] := by
  simp only [FrameTimer.deltas, FrameTimer.step, FrameTimer.frame_ns, FrameTimer.frame,
    FrameTimer.enter_idle, FrameTimer.leave_idle]
  congr 2
  omega

/-! ## Theorems: `importers/importers.hpp` -/

namespace Importer

/-- `std::max` is the maximum of the order. -/
theorem std_max_eq_max (a b : ℚ) : std_max a b = max a b := by
  unfold std_max
  split
  · next h => exact (max_eq_right (le_of_lt h)).symm
  · next h => exact (max_eq_left (not_lt.mp h)).symm

/-- C1: for every `AnimationSampler`, `get_length()` equals the maximum of
`translation.get_length()`, `rotation.get_length()` and `scale.get_length()`,
each track's length being the time of its last keyframe, or 0 for an empty
track; in particular `get_length()` is 0 when all three tracks are empty. -/
theorem AnimationSampler.get_length_eq_max (s : AnimationSampler) :
    s.get_length
        = max (max s.translation.get_length s.rotation.get_length) s.scale.get_length
      ∧ (∀ (ks : List (Keyframe vec3)) (k : Keyframe vec3),
          LinearSampler.get_length ⟨ks ++ [k]⟩ = k.time)
      ∧ (∀ (ks : List (Keyframe quat)) (k : Keyframe quat),
          SlerpSampler.get_length ⟨ks ++ [k]⟩ = k.time)
      ∧ LinearSampler.get_length ⟨[]⟩ = 0
      ∧ SlerpSampler.get_length ⟨[]⟩ = 0
      ∧ AnimationSampler.get_length ⟨⟨[]⟩, ⟨[]⟩, ⟨[]⟩⟩ = 0 := by
  refine ⟨?_, ?_, ?_, rfl, rfl, ?_⟩
  · simp only [AnimationSampler.get_length, std_max_eq_max]
  · intro ks k
    simp [LinearSampler.get_length]
  · intro ks k
    simp [SlerpSampler.get_length]
  · simp [AnimationSampler.get_length, LinearSampler.get_length, SlerpSampler.get_length,
      std_max]

/-- C2: a default-constructed `NodeTransform` has scale (1,1,1), translation
(0,0,0) and rotation equal to the identity quaternion (w = 1, x = y = z = 0);
the squared norm of the rotation is 1, and so its norm, the non-negative number
whose square is the squared norm, is exactly 1. -/
theorem NodeTransform.default_is_identity :
    NodeTransform.default.scale = { x := 1, y := 1, z := 1 }
      ∧ NodeTransform.default.translation = { x := 0, y := 0, z := 0 }
      ∧ NodeTransform.default.rotation = { w := 1, x := 0, y := 0, z := 0 }
      ∧ NodeTransform.default.rotation.norm_sq = 1
      ∧ ∀ n : ℚ, 0 ≤ n → n * n = NodeTransform.default.rotation.norm_sq → n = 1 := by
  have hn : NodeTransform.default.rotation.norm_sq = 1 := by
    simp [NodeTransform.default, quat.ctor, quat.norm_sq]
  refine ⟨rfl, rfl, rfl, hn, ?_⟩
  intro n h0 hsq
  rw [hn] at hsq
  nlinarith [sq_nonneg (n - 1), sq_nonneg (n + 1)]

/-- C4: every `Mesh` the import accepts satisfies
`positions.size() == count * position_stride` and
`attributes.size() == count * attribute_stride`; an accepted `Mesh` with
`count = 3` and `position_stride = 12` has a 36-byte positions buffer; a `Mesh`
whose buffer size does not match is rejected rather than accepted. The
default-constructed `Mesh` of the sources (empty buffers, zero count and
strides) is accepted. -/
theorem import_mesh_sizes (m : Mesh) :
    (∀ m1 : Mesh, import_mesh m = Except.ok m1 →
        m1 = m
          ∧ m1.positions.length = m1.count * m1.position_stride
          ∧ m1.attributes.length = m1.count * m1.attribute_stride)
      ∧ (∀ m1 : Mesh, import_mesh m = Except.ok m1 →
          m1.count = 3 → m1.position_stride = 12 → m1.positions.length = 36)
      ∧ (m.positions.length ≠ m.count * m.position_stride
            ∨ m.attributes.length ≠ m.count * m.attribute_stride →
          import_mesh m = Except.error ImportError.stride_size_mismatch)
      ∧ (∀ index_type topology : Nat,
          import_mesh (Mesh.default index_type topology)
            = Except.ok (Mesh.default index_type topology)) := by
  have key : ∀ m1 : Mesh, import_mesh m = Except.ok m1 →
      m1 = m ∧ m1.positions.length = m1.count * m1.position_stride
        ∧ m1.attributes.length = m1.count * m1.attribute_stride := by
    intro m1 h
    unfold import_mesh at h
    split at h
    · next hm =>
      injection h with h
      subst h
      simp only [Mesh.sizes_match, Bool.and_eq_true, beq_iff_eq] at hm
      exact ⟨rfl, hm.1, hm.2⟩
    · cases h
  refine ⟨key, ?_, ?_, ?_⟩
  · intro m1 h hc hs
    have := (key m1 h).2.1
    rw [this, hc, hs]
  · intro h
    unfold import_mesh
    have : m.sizes_match = false := by
      simp only [Mesh.sizes_match, Bool.and_eq_false_iff, beq_eq_false_iff_ne]
      exact h
    simp [this]
  · intro i t
    rfl

/-- The linear scan ends in a bracketing pair: if `t` is not before the keyframe
the scan stands on and not after the last keyframe, the value is the blend of
two neighbouring keyframes that enclose `t`. -/
theorem LinearSampler.sample_bracket_spec (rest : List (Keyframe vec3)) :
    ∀ (k : Keyframe vec3) (t : ℚ) (hne : rest ≠ []),
      k.time ≤ t → t ≤ (rest.getLast hne).time →
      ∃ (i : Nat) (ki kj : Keyframe vec3),
        (k :: rest)[i]? = some ki ∧ (k :: rest)[i + 1]? = some kj
          ∧ ki.time ≤ t ∧ t ≤ kj.time
          ∧ LinearSampler.sample_bracket k rest t
              = vec3.mix ki.value kj.value
                  (if kj.time - ki.time = 0 then 0
                    else (t - ki.time) / (kj.time - ki.time)) := by
  induction rest with
  | nil => intro k t hne; exact absurd rfl hne
  | cons k1 rest ih =>
    intro k t _ hk hl
    by_cases h1 : t ≤ k1.time
    · refine ⟨0, k, k1, by simp, by simp, hk, h1, ?_⟩
      simp [LinearSampler.sample_bracket, h1, LinearSampler.blend_factor]
    · have hne' : rest ≠ [] := by
        intro h
        subst h
        exact h1 hl
      have hl' : t ≤ (rest.getLast hne').time := by
        rw [List.getLast_cons hne'] at hl
        exact hl
      obtain ⟨i, ki, kj, hi, hj, h2, h3, h4⟩ := ih k1 t hne' (le_of_lt (not_le.mp h1)) hl'
      refine ⟨i + 1, ki, kj, ?_, ?_, h2, h3, ?_⟩
      · simpa using hi
      · simpa using hj
      · simp only [LinearSampler.sample_bracket, h1, if_false]
        exact h4

/-- C3: for a translation or scale track with at least two keyframes sorted by
time, sampling at time `t` returns the first keyframe's value when `t` is
before the first keyframe time, the last keyframe's value when `t` is after the
last keyframe time, and otherwise the component-wise linear blend of a
bracketing pair `k_i`, `k_{i+1}` with
`u = (t - k_i.time) / (k_{i+1}.time - k_i.time)` (`u = 0` when the interval has
zero length). For the track `{(0.0,(0,0,0)), (2.0,(10,0,0))}`, as translation
track or as scale track, sampling at `t = 1.0` gives (5,0,0), at `t = -1.0`
gives (0,0,0) and at `t = 5.0` gives (10,0,0). -/
theorem LinearSampler.sample_clamps_and_blends
    (k0 k1 : Keyframe vec3) (rest : List (Keyframe vec3)) (dflt : vec3) (t : ℚ)
    (hs : (k0 :: k1 :: rest).Pairwise (fun a b => a.time ≤ b.time)) :
    (t < k0.time → LinearSampler.sample ⟨k0 :: k1 :: rest⟩ dflt t = k0.value)
      ∧ (((k1 :: rest).getLast (List.cons_ne_nil k1 rest)).time < t →
          LinearSampler.sample ⟨k0 :: k1 :: rest⟩ dflt t
            = ((k1 :: rest).getLast (List.cons_ne_nil k1 rest)).value)
      ∧ (k0.time ≤ t → t ≤ ((k1 :: rest).getLast (List.cons_ne_nil k1 rest)).time →
          ∃ (i : Nat) (ki kj : Keyframe vec3),
            (k0 :: k1 :: rest)[i]? = some ki ∧ (k0 :: k1 :: rest)[i + 1]? = some kj
              ∧ ki.time ≤ t ∧ t ≤ kj.time
              ∧ LinearSampler.sample ⟨k0 :: k1 :: rest⟩ dflt t
                  = { x := ki.value.x * (1 - (if kj.time - ki.time = 0 then 0
                              else (t - ki.time) / (kj.time - ki.time)))
                        + kj.value.x * (if kj.time - ki.time = 0 then 0
                              else (t - ki.time) / (kj.time - ki.time))
                      y := ki.value.y * (1 - (if kj.time - ki.time = 0 then 0
                              else (t - ki.time) / (kj.time - ki.time)))
                        + kj.value.y * (if kj.time - ki.time = 0 then 0
                              else (t - ki.time) / (kj.time - ki.time))
                      z := ki.value.z * (1 - (if kj.time - ki.time = 0 then 0
                              else (t - ki.time) / (kj.time - ki.time)))
                        + kj.value.z * (if kj.time - ki.time = 0 then 0
                              else (t - ki.time) / (kj.time - ki.time)) })
      ∧ (∀ (a : AnimationSampler) (out : vec3),
          a.translation.keyframes = [⟨0, ⟨0, 0, 0⟩⟩, ⟨2, ⟨10, 0, 0⟩⟩] →
          a.sample_transform out 1 = ⟨5, 0, 0⟩
            ∧ a.sample_transform out (-1) = ⟨0, 0, 0⟩
            ∧ a.sample_transform out 5 = ⟨10, 0, 0⟩)
      ∧ (∀ (a : AnimationSampler) (out : vec3),
          a.scale.keyframes = [⟨0, ⟨0, 0, 0⟩⟩, ⟨2, ⟨10, 0, 0⟩⟩] →
          a.sample_scale out 1 = ⟨5, 0, 0⟩
            ∧ a.sample_scale out (-1) = ⟨0, 0, 0⟩
            ∧ a.sample_scale out 5 = ⟨10, 0, 0⟩) := by
  have hfl : k0.time ≤ ((k1 :: rest).getLast (List.cons_ne_nil k1 rest)).time :=
    (List.pairwise_cons.mp hs).1 _ (List.getLast_mem _)
  refine ⟨?_, ?_, ?_, ?_, ?_⟩
  · intro h
    simp [LinearSampler.sample, h]
  · intro h
    have h0 : ¬ t < k0.time := not_lt.mpr (le_trans hfl (le_of_lt h))
    simp only [LinearSampler.sample, h0, if_false, h, if_true]
  · intro h0 hl
    obtain ⟨i, ki, kj, hi, hj, h2, h3, h4⟩ :=
      LinearSampler.sample_bracket_spec (k1 :: rest) k0 t (List.cons_ne_nil k1 rest) h0 hl
    refine ⟨i, ki, kj, hi, hj, h2, h3, ?_⟩
    simp only [LinearSampler.sample, not_lt.mpr h0, if_false, not_lt.mpr hl]
    rw [h4]
    rfl
  · intro a out ha
    simp only [AnimationSampler.sample_transform, LinearSampler.sample, ha,
      LinearSampler.sample_bracket, LinearSampler.blend_factor, vec3.mix, List.getLast_cons_cons,
      List.getLast_singleton]
    norm_num
  · intro a out ha
    simp only [AnimationSampler.sample_scale, LinearSampler.sample, ha,
      LinearSampler.sample_bracket, LinearSampler.blend_factor, vec3.mix, List.getLast_cons_cons,
      List.getLast_singleton]
    norm_num

/-- An instance of `sample_clamps_and_blends`: on a sorted track of three
keyframes, a query after the last keyframe time gives the last value. -/
theorem LinearSampler.sample_clamps_and_blends_witness :
    ([⟨0, ⟨0, 0, 0⟩⟩, ⟨2, ⟨10, 0, 0⟩⟩, ⟨3, ⟨4, 4, 4⟩⟩] : List (Keyframe vec3)).Pairwise
        (fun a b => a.time ≤ b.time)
      ∧ LinearSampler.sample ⟨[⟨0, ⟨0, 0, 0⟩⟩, ⟨2, ⟨10, 0, 0⟩⟩, ⟨3, ⟨4, 4, 4⟩⟩]⟩ ⟨9, 9, 9⟩ 7
          = ⟨4, 4, 4⟩ :=
  have hs : ([⟨0, ⟨0, 0, 0⟩⟩, ⟨2, ⟨10, 0, 0⟩⟩, ⟨3, ⟨4, 4, 4⟩⟩] : List (Keyframe vec3)).Pairwise
      (fun a b => a.time ≤ b.time) := by norm_num [List.pairwise_cons]
  ⟨hs, (LinearSampler.sample_clamps_and_blends ⟨0, ⟨0, 0, 0⟩⟩ ⟨2, ⟨10, 0, 0⟩⟩
    [⟨3, ⟨4, 4, 4⟩⟩] ⟨9, 9, 9⟩ 7 hs).2.1 (by norm_num)⟩

end Importer

/-! ## Theorems: `tests/texture-quad.cpp` -/

namespace TextureQuad

/-- `DIM` as a positional sum. -/
theorem DIM_eq (dim : Fin 3 → uint8_t) :
    DIM dim = (dim 0).val + 256 * (dim 1).val + 65536 * (dim 2).val := by
  simp only [DIM, Nat.shiftLeft_eq]
  omega

/-- `DIM` stays below `2 ^ 24`. -/
theorem DIM_lt (dim : Fin 3 → uint8_t) : DIM dim < 2 ^ 24 := by
  rw [DIM_eq]
  have h0 := (dim 0).isLt
  have h1 := (dim 1).isLt
  have h2 := (dim 2).isLt
  omega

/-- The `uint32_t` round-up division of `on_device_created` is the exact
ceiling for a dimension below `2 ^ 24` and a block size in `1 .. 255`. -/
theorem blocks_eq (w b : Nat) (hw : w < 2 ^ 24) (hb0 : 0 < b) (hb : b < 256) :
    u32_sub (u32_add w b) 1 / b = (w + b - 1) / b := by
  have h1 : u32_add w b = w + b := by
    unfold u32_add
    exact Nat.mod_eq_of_lt (by omega)
  have h2 : u32_sub (w + b) 1 = w + b - 1 := by
    unfold u32_sub
    have : w + b + 2 ^ 32 - 1 = (w + b - 1) + 2 ^ 32 := by omega
    rw [this, Nat.add_mod_right]
    exact Nat.mod_eq_of_lt (by omega)
  rw [h1, h2]

/-- Round-up division gives the least number of blocks that cover `w`. -/
theorem ceil_div_least (w b : Nat) (hb0 : 0 < b) :
    w ≤ (w + b - 1) / b * b ∧ ∀ n : Nat, w ≤ n * b → (w + b - 1) / b ≤ n := by
  constructor
  · have h := Nat.div_add_mod (w + b - 1) b
    have hlt := Nat.mod_lt (w + b - 1) hb0
    have : b * ((w + b - 1) / b) = (w + b - 1) / b * b := Nat.mul_comm _ _
    omega
  · intro n hn
    have : (w + b - 1) / b < n + 1 := by
      rw [Nat.div_lt_iff_lt_mul hb0]
      have : (n + 1) * b = n * b + b := by ring
      omega
    omega

/-- Round-up division is the ceiling of the rational quotient. -/
theorem ceil_div_eq (w b : Nat) (hb0 : 0 < b) :
    (w + b - 1) / b = ⌈(w : ℚ) / (b : ℚ)⌉₊ := by
  have hbq : (0 : ℚ) < (b : ℚ) := by exact_mod_cast hb0
  apply le_antisymm
  · apply (ceil_div_least w b hb0).2
    have h := Nat.le_ceil ((w : ℚ) / (b : ℚ))
    rw [div_le_iff₀ hbq] at h
    exact_mod_cast h
  · apply Nat.ceil_le.mpr
    rw [div_le_iff₀ hbq]
    exact_mod_cast (ceil_div_least w b hb0).1

/-- C6: `is_arm_encoder_astc(data)` returns true if and only if the first four
bytes of `data` are 0x13, 0xAB, 0xA1, 0x5C in that order (the ASTC file magic);
the result depends on no byte after the fourth. -/
theorem is_arm_encoder_astc_iff_magic (data : Bytes) :
    (is_arm_encoder_astc data = true ↔
        data 0 = 0x13 ∧ data 1 = 0xAB ∧ data 2 = 0xA1 ∧ data 3 = 0x5C)
      ∧ ∀ data1 : Bytes, (∀ i : Nat, i < 4 → data1 i = data i) →
          is_arm_encoder_astc data1 = is_arm_encoder_astc data := by
  have e3 : ((3 : Fin 4) : Nat) = 3 := rfl
  constructor
  · simp [is_arm_encoder_astc, astc_header.cast, and_assoc, e3]
  · intro data1 h
    simp [is_arm_encoder_astc, astc_header.cast, e3, h 0 (by omega), h 1 (by omega),
      h 2 (by omega), h 3 (by omega)]

/-- C8: `DIM` decodes a three-byte header dimension field as a 24-bit
little-endian unsigned integer: for every byte triple (d0, d1, d2) the value is
`d0 + 256 * d1 + 65536 * d2`, which is less than `2 ^ 24`, and distinct triples
decode to distinct values; the width and the height `on_device_created` reads
from the header are these values of the bytes at offsets 7..9 and 10..12. -/
theorem DIM_little_endian_24 (dim : Fin 3 → uint8_t) :
    DIM dim = (dim 0).val + 256 * (dim 1).val + 65536 * (dim 2).val
      ∧ DIM dim < 2 ^ 24
      ∧ (∀ dim1 : Fin 3 → uint8_t, DIM dim1 = DIM dim → dim1 = dim)
      ∧ (∀ (data : Bytes) (r : AstcSetup), QuadApplication.on_device_created data = some r →
          r.astc_dim.width
              = (data 7).val + 256 * (data 8).val + 65536 * (data 9).val
            ∧ r.astc_dim.height
              = (data 10).val + 256 * (data 11).val + 65536 * (data 12).val) := by
  refine ⟨DIM_eq dim, DIM_lt dim, ?_, ?_⟩
  · intro dim1 h
    rw [DIM_eq, DIM_eq] at h
    have a0 := (dim 0).isLt
    have a1 := (dim 1).isLt
    have a2 := (dim 2).isLt
    have b0 := (dim1 0).isLt
    have b1 := (dim1 1).isLt
    have b2 := (dim1 2).isLt
    funext i
    apply Fin.ext
    fin_cases i
    · show (dim1 0).val = (dim 0).val
      omega
    · show (dim1 1).val = (dim 1).val
      omega
    · show (dim1 2).val = (dim 2).val
      omega
  · intro data r h
    unfold QuadApplication.on_device_created at h
    split at h
    · simp only at h
      split at h
      · cases h
      · injection h with h
        subst h
        have hx := DIM_lt (astc_header.cast data).dim_x
        have hy := DIM_lt (astc_header.cast data).dim_y
        simp only [to_uint32]
        rw [Nat.mod_eq_of_lt (by omega), Nat.mod_eq_of_lt (by omega), DIM_eq, DIM_eq]
        simp [astc_header.cast]
    · cases h

/-- C7: the image size is calculated from the blocks. For every ASTC header
(data with the magic) with non-zero `block_x` and `block_y`,
`on_device_created` reaches the size computation with `width` and `height` the
24-bit values of the header's `dim_x` and `dim_y` and `block_w`, `block_h` the
header's `block_x`, `block_y`; `w_blocks` is the least `n` with
`n * block_x >= width`, the ceiling of `width / block_x`, `h_blocks` likewise
for the height, and `astc_size` equals `w_blocks * h_blocks * 16` in 32-bit
unsigned arithmetic, that is modulo `2 ^ 32`: 16 bytes for each block needed to
cover the image whenever that number is below `2 ^ 32`. -/
theorem on_device_created_block_cover (data : Bytes)
    (hm : is_arm_encoder_astc data = true)
    (hx : (astc_header.cast data).block_x ≠ 0)
    (hy : (astc_header.cast data).block_y ≠ 0) :
    ∃ r : AstcSetup, QuadApplication.on_device_created data = some r
      ∧ r.astc_dim.width
          = ((astc_header.cast data).dim_x 0).val
            + 256 * ((astc_header.cast data).dim_x 1).val
            + 65536 * ((astc_header.cast data).dim_x 2).val
      ∧ r.astc_dim.height
          = ((astc_header.cast data).dim_y 0).val
            + 256 * ((astc_header.cast data).dim_y 1).val
            + 65536 * ((astc_header.cast data).dim_y 2).val
      ∧ r.block_w = (astc_header.cast data).block_x.val
      ∧ r.block_h = (astc_header.cast data).block_y.val
      ∧ r.astc_dim.width ≤ r.w_blocks * r.block_w
      ∧ (∀ n : Nat, r.astc_dim.width ≤ n * r.block_w → r.w_blocks ≤ n)
      ∧ r.w_blocks = ⌈(r.astc_dim.width : ℚ) / (r.block_w : ℚ)⌉₊
      ∧ r.astc_dim.height ≤ r.h_blocks * r.block_h
      ∧ (∀ n : Nat, r.astc_dim.height ≤ n * r.block_h → r.h_blocks ≤ n)
      ∧ r.h_blocks = ⌈(r.astc_dim.height : ℚ) / (r.block_h : ℚ)⌉₊
      ∧ r.astc_size = (r.w_blocks * r.h_blocks * 16) % 2 ^ 32
      ∧ (r.w_blocks * r.h_blocks * 16 < 2 ^ 32 →
          r.astc_size = r.w_blocks * r.h_blocks * 16) := by
  have e4 : ((astc_header.cast data).block_x).val = (data 4).val := rfl
  have e5 : ((astc_header.cast data).block_y).val = (data 5).val := rfl
  have hbx : 0 < (data 4).val := Nat.pos_of_ne_zero (fun h => hx (Fin.ext h))
  have hby : 0 < (data 5).val := Nat.pos_of_ne_zero (fun h => hy (Fin.ext h))
  have hdx : to_uint32 (DIM (astc_header.cast data).dim_x)
      = ((astc_header.cast data).dim_x 0).val
        + 256 * ((astc_header.cast data).dim_x 1).val
        + 65536 * ((astc_header.cast data).dim_x 2).val := by
    have h := DIM_lt (astc_header.cast data).dim_x
    unfold to_uint32
    rw [Nat.mod_eq_of_lt (by omega), DIM_eq]
  have hdy : to_uint32 (DIM (astc_header.cast data).dim_y)
      = ((astc_header.cast data).dim_y 0).val
        + 256 * ((astc_header.cast data).dim_y 1).val
        + 65536 * ((astc_header.cast data).dim_y 2).val := by
    have h := DIM_lt (astc_header.cast data).dim_y
    unfold to_uint32
    rw [Nat.mod_eq_of_lt (by omega), DIM_eq]
  have hwx : to_uint32 (DIM (astc_header.cast data).dim_x) < 2 ^ 24 :=
    lt_of_le_of_lt (Nat.mod_le _ _) (DIM_lt _)
  have hwy : to_uint32 (DIM (astc_header.cast data).dim_y) < 2 ^ 24 :=
    lt_of_le_of_lt (Nat.mod_le _ _) (DIM_lt _)
  have hcx := blocks_eq _ _ hwx hbx (data 4).isLt
  have hcy := blocks_eq _ _ hwy hby (data 5).isLt
  have hsz : ∀ a b : Nat, u32_mul (u32_mul a b) 16 = (a * b * 16) % 2 ^ 32 := by
    intro a b
    simp only [u32_mul, Nat.mod_mul_mod]
  have hne : ¬ ((data 4).val = 0 ∨ (data 5).val = 0) := by omega
  have hr : QuadApplication.on_device_created data = some
      { astc_dim := { width := to_uint32 (DIM (astc_header.cast data).dim_x),
                      height := to_uint32 (DIM (astc_header.cast data).dim_y) },
        block_w := (data 4).val, block_h := (data 5).val,
        w_blocks := (to_uint32 (DIM (astc_header.cast data).dim_x) + (data 4).val - 1)
          / (data 4).val,
        h_blocks := (to_uint32 (DIM (astc_header.cast data).dim_y) + (data 5).val - 1)
          / (data 5).val,
        astc_size :=
          ((to_uint32 (DIM (astc_header.cast data).dim_x) + (data 4).val - 1) / (data 4).val
            * ((to_uint32 (DIM (astc_header.cast data).dim_y) + (data 5).val - 1)
              / (data 5).val) * 16) % 2 ^ 32,
        astc_data_offset := sizeof_astc_header } := by
    simp only [QuadApplication.on_device_created, hm, if_true]
    rw [e4, e5, if_neg hne, hcx, hcy, hsz]
  refine ⟨_, hr, hdx, hdy, rfl, rfl, (ceil_div_least _ _ hbx).1, (ceil_div_least _ _ hbx).2,
    ceil_div_eq _ _ hbx, (ceil_div_least _ _ hby).1, (ceil_div_least _ _ hby).2,
    ceil_div_eq _ _ hby, rfl, ?_⟩
  intro h
  exact Nat.mod_eq_of_lt h

/-- An instance of `on_device_created_block_cover`: the header of a 256 x 256
image in 8 x 8 blocks. The setup is computed, the image is 256 x 256, it is
covered by 32 x 32 blocks and the blocks take 16384 bytes. -/
theorem on_device_created_block_cover_witness :
    is_arm_encoder_astc
        (bytes_of [0x13, 0xAB, 0xA1, 0x5C, 8, 8, 1, 0, 1, 0, 0, 1, 0, 1, 0, 0]) = true
      ∧ (astc_header.cast
          (bytes_of [0x13, 0xAB, 0xA1, 0x5C, 8, 8, 1, 0, 1, 0, 0, 1, 0, 1, 0, 0])).block_x ≠ 0
      ∧ (astc_header.cast
          (bytes_of [0x13, 0xAB, 0xA1, 0x5C, 8, 8, 1, 0, 1, 0, 0, 1, 0, 1, 0, 0])).block_y ≠ 0
      ∧ ∃ r : AstcSetup,
          QuadApplication.on_device_created
              (bytes_of [0x13, 0xAB, 0xA1, 0x5C, 8, 8, 1, 0, 1, 0, 0, 1, 0, 1, 0, 0]) = some r
            ∧ r.astc_dim.width = 256 ∧ r.astc_dim.height = 256
            ∧ r.block_w = 8 ∧ r.block_h = 8
            ∧ r.w_blocks = 32 ∧ r.h_blocks = 32
            ∧ r.astc_size = 16384 := by
  refine ⟨by decide, by decide, by decide, ?_⟩
  obtain ⟨r, hr, hw, hh, hbw, hbh, hw1, hw2, _, hh1, hh2, _, hsz, _⟩ :=
    on_device_created_block_cover
      (bytes_of [0x13, 0xAB, 0xA1, 0x5C, 8, 8, 1, 0, 1, 0, 0, 1, 0, 1, 0, 0])
      (by decide) (by decide) (by decide)
  have hw3 : r.astc_dim.width = 256 := hw
  have hh3 : r.astc_dim.height = 256 := hh
  have hbw3 : r.block_w = 8 := hbw
  have hbh3 : r.block_h = 8 := hbh
  rw [hw3, hbw3] at hw1 hw2
  rw [hh3, hbh3] at hh1 hh2
  have hw4 : r.w_blocks = 32 := by
    have := hw2 32 (by norm_num)
    omega
  have hh4 : r.h_blocks = 32 := by
    have := hh2 32 (by norm_num)
    omega
  refine ⟨r, hr, hw3, hh3, hbw3, hbh3, hw4, hh4, ?_⟩
  rw [hsz, hw4, hh4]
  decide

end TextureQuad

end Granite
